import Mathlib

/-!
Shallow embedding of the md_api_server request-dispatch layer.

The JavaScript source is modelled as executable Lean functions:

* `checkParameter` embeds `APIUtils.checkParameter` (parameter validation);
* `getPermissionDecendants` / `getUserPermissions` / `userHasPermissions` /
  `allowedToExecuteMethod` embed the permission resolver of `APIUtils.js`
  (database recursion is made explicit with a fuel parameter: a `none`
  result models non-termination of the JS recursion);
* `APIMethod.execute` / `APIUtils.tryExecuteMethod` and the `/multicall`
  handler loop are embedded over an explicit database state with a
  transaction snapshot;
* the `/session/login`, `/session/logout` handlers and
  `APIUtils.establishSession` are embedded over explicit tables.

JavaScript `undefined` versus `null` is modelled with `Option` layers and a
`JSValue.vnull` / `JSValue.vundef` constructor where the distinction is
observable in the source.  JavaScript exceptions (`ReferenceError` for
reading an unbound identifier, `TypeError` for reading a property of
`undefined`) are modelled with `JsErr`.
-/

namespace MdApi

/-- JavaScript runtime values, as far as the validation pipeline observes
them.  Numbers are modelled as rationals (the source never exercises
floating-point rounding in the properties verified here); structured JSON
results of `JSON.parse` outside this universe are not needed by any claim. -/
inductive JSValue where
  | vstr (s : String)
  | vnum (q : ℚ)
  | vbool (b : Bool)
  | vnull
  | vundef
deriving DecidableEq, Repr

open JSValue

/-- A JavaScript object used as a parameter bag: list of key/value pairs,
first binding wins (later merges in the source overwrite keys before the
pipeline runs, so the pipeline itself sees one binding per key). -/
abbrev Parms := List (String × JSValue)

/-- Property lookup `obj[key]`: `none` models an absent key (which reads as
`undefined` in JavaScript). -/
def lookupParm (parms : Parms) (key : String) : Option JSValue :=
  (parms.find? (fun kv => kv.1 = key)).map (·.2)

/-- Assignment `obj[key] = v` (overwrites the binding if present). -/
def setParm (parms : Parms) (key : String) (v : JSValue) : Parms :=
  if (parms.find? (fun kv => kv.1 = key)).isSome then
    parms.map (fun kv => if kv.1 = key then (key, v) else kv)
  else
    parms ++ [(key, v)]

/-- The wire error-kind vocabulary of `APIConstants.js`. -/
def PERMISSION_MISSING : String := "PERMISSION_MISSING"
def PERMISSION_SESSION : String := "PERMISSION_SESSION"
def PERMISSION_NO_SESSION : String := "PERMISSION_NO_SESSION"
def PARAM_MISSING : String := "PARAM_MISSING"
def PARAM_TYPE : String := "PARAM_TYPE"
def PARAM_RANGE : String := "PARAM_RANGE"
def HANDLER_ERROR : String := "HANDLER_ERROR"
def METHOD_ERROR : String := "METHOD_ERROR"
def METHOD_UNKNOWN : String := "METHOD_UNKNOWN"
def MULTICALL_ERROR : String := "MULTICALL_ERROR"

/-- JavaScript exceptions observable in the embedded code paths. -/
inductive JsErr where
  /-- reading a property of `undefined` -/
  | typeError
  /-- reading an identifier that is not bound in scope -/
  | referenceError
deriving DecidableEq, Repr

-- ---------------------------------------------------------------------------
-- String coercion helpers (JavaScript builtins used by checkParameter)
-- ---------------------------------------------------------------------------

/-- The `String(v)` coercion for the values of our universe.  Decimal formatting of
non-integer numbers is not exercised by any verified property; integers are
formatted exactly as JavaScript does. -/
def jsToString : JSValue → String
  | vstr s => s
  | vnum q => if q.den = 1 then toString q.num else toString q.num ++ "." ++ toString q.den
  | vbool true => "true"
  | vbool false => "false"
  | vnull => "null"
  | vundef => "undefined"

/-- JavaScript `String.prototype.trim`, implemented structurally on the
character list (whitespace per `Char.isWhitespace`). -/
def jsTrim (s : String) : String :=
  ⟨((s.data.dropWhile Char.isWhitespace).reverse.dropWhile Char.isWhitespace).reverse⟩

/-- JavaScript `String.prototype.toLowerCase`, implemented structurally. -/
def jsToLower (s : String) : String :=
  ⟨s.data.map Char.toLower⟩

/-- all characters are decimal digits (and there is at least one) -/
def allDigits (cs : List Char) : Bool := !cs.isEmpty && cs.all Char.isDigit

/-- regex `^([0-9]+)$` of the `int` case -/
def intMatch (s : String) : Bool := allDigits s.data

/-- numeric value of a digit list -/
def digitsVal (cs : List Char) : Nat := cs.foldl (fun n c => 10 * n + (c.toNat - 48)) 0

/-- numeric value of an all-digit string (JS `parseInt` on a matched int) -/
def digitsToNat (s : String) : Nat := digitsVal s.data

/-- body of the float regex after the optional sign: `[0-9]+(\.[0-9]+)?` -/
def floatBodyMatch (cs : List Char) : Bool :=
  let sp := cs.span Char.isDigit
  !sp.1.isEmpty &&
  (match sp.2 with
   | [] => true
   | '.' :: frac => allDigits frac
   | _ => false)

/-- regex `^[-]?[0-9]+(\.[0-9]+)?$` of the `float` case -/
def floatMatch (s : String) : Bool :=
  match s.data with
  | '-' :: rest => floatBodyMatch rest
  | cs => floatBodyMatch cs

/-- value of the body of a matched float literal -/
def floatBodyValue (cs : List Char) : ℚ :=
  let sp := cs.span Char.isDigit
  match sp.2 with
  | '.' :: frac => (digitsVal sp.1 : ℚ) + (digitsVal frac : ℚ) / ((10 : ℚ) ^ frac.length)
  | _ => (digitsVal sp.1 : ℚ)

/-- value of a matched float literal (JS `Number` on a matched float) -/
def floatValue (s : String) : ℚ :=
  match s.data with
  | '-' :: rest => -(floatBodyValue rest)
  | cs => floatBodyValue cs

/-- The `ToNumber` coercion of a string used by JavaScript `<` / `>` when a
string is compared with a number; `none` models `NaN` (every comparison
with `NaN` is false). -/
def toNumber (s : String) : Option ℚ :=
  let t := jsTrim s
  if t = "" then some 0
  else if floatMatch t then some (floatValue t) else none

/-- JavaScript `value < bound` for a numeric bound (used by the `min`
check).  A `NaN` comparison and a comparison whose left side is not a
number-coercible value yield `false`. -/
def jsLtNum (v : JSValue) (m : ℚ) : Bool :=
  match v with
  | vnum q => q < m
  | vstr s => match toNumber s with
    | some q => q < m
    | none => false
  | vbool b => (if b then (1 : ℚ) else 0) < m
  | vnull => (0 : ℚ) < m
  | vundef => false

/-- JavaScript `value > bound` for a numeric bound (used by the `max`
check). -/
def jsGtNum (v : JSValue) (m : ℚ) : Bool :=
  match v with
  | vnum q => m < q
  | vstr s => match toNumber s with
    | some q => m < q
    | none => false
  | vbool b => m < (if b then (1 : ℚ) else 0)
  | vnull => m < (0 : ℚ)
  | vundef => false

/-- The `value.length` read: only strings have a `length` property here; for other
values the read yields `undefined` and the comparisons in the source are
then false. -/
def jsLength : JSValue → Option Nat
  | vstr s => some s.length
  | _ => none

-- ---------------------------------------------------------------------------
-- Regex predicates of the date / datetime / sha256 / uuid cases
-- ---------------------------------------------------------------------------

def isDigitCh (c : Char) : Bool := c.isDigit

/-- month group `(0\d|1[1-2])` -/
def monthMatch (m1 m2 : Char) : Bool :=
  (m1 = '0' && isDigitCh m2) || (m1 = '1' && (m2 = '1' || m2 = '2'))

/-- day group `([0-2][1-9]|10|20|3[0-1])` -/
def dayMatch (d1 d2 : Char) : Bool :=
  ((d1 = '0' || d1 = '1' || d1 = '2') && ('1' ≤ d2 && d2 ≤ '9'))
  || (d1 = '1' && d2 = '0') || (d1 = '2' && d2 = '0')
  || (d1 = '3' && (d2 = '0' || d2 = '1'))

/-- regex `^(\d{4})-(0\d|1[1-2])-([0-2][1-9]|10|20|3[0-1])$` of the `date`
case -/
def dateMatch (s : String) : Bool :=
  match s.data with
  | [y1, y2, y3, y4, h1, m1, m2, h2, d1, d2] =>
    isDigitCh y1 && isDigitCh y2 && isDigitCh y3 && isDigitCh y4 &&
    h1 = '-' && h2 = '-' && monthMatch m1 m2 && dayMatch d1 d2
  | _ => false

/-- hour group `([0-1][0-9]|2[0-3])` -/
def hourMatch (h1 h2 : Char) : Bool :=
  ((h1 = '0' || h1 = '1') && isDigitCh h2) || (h1 = '2' && ('0' ≤ h2 && h2 ≤ '3'))

/-- minute/second group `([0-5][0-9])` -/
def minSecMatch (c1 c2 : Char) : Bool :=
  ('0' ≤ c1 && c1 ≤ '5') && isDigitCh c2

/-- regex of the `datetime` case -/
def datetimeMatch (s : String) : Bool :=
  match s.data with
  | [y1, y2, y3, y4, ha, m1, m2, hb, d1, d2, sp, t1, t2, c1, t3, t4, c2, t5, t6] =>
    isDigitCh y1 && isDigitCh y2 && isDigitCh y3 && isDigitCh y4 &&
    ha = '-' && hb = '-' && monthMatch m1 m2 && dayMatch d1 d2 &&
    sp = ' ' && hourMatch t1 t2 && c1 = ':' && minSecMatch t3 t4 &&
    c2 = ':' && minSecMatch t5 t6
  | _ => false

def isHexCh (c : Char) : Bool :=
  c.isDigit || ('a' ≤ c && c ≤ 'f') || ('A' ≤ c && c ≤ 'F')

/-- regex `^[A-Fa-f0-9]{64}$` of the `sha256` case -/
def sha256Match (s : String) : Bool :=
  s.length = 64 && s.data.all isHexCh

def isLowHexCh (c : Char) : Bool := c.isDigit || ('a' ≤ c && c ≤ 'f')

/-- case-insensitive hex digit (pattern compiled with the `i` flag) -/
def isHexChI (c : Char) : Bool := isHexCh c

/-- regex `^[0-9a-f]{8}-[0-9a-f]{4}-[1-5][0-9a-f]{3}-[89ab][0-9a-f]{3}-[0-9a-f]{12}$/i`
of the `uuid` case -/
def uuidMatch (s : String) : Bool :=
  let cs := s.data
  cs.length = 36 &&
  (List.range 36).all (fun i =>
    let c := cs.getD i ' '
    if i = 8 || i = 13 || i = 18 || i = 23 then c = '-'
    else if i = 14 then '1' ≤ c && c ≤ '5'
    else if i = 19 then c = '8' || c = '9' || c = 'a' || c = 'b' || c = 'A' || c = 'B'
    else isHexChI c)

-- ---------------------------------------------------------------------------
-- checkParameter  (APIUtils.checkParameter, APIUtils.js lines 296-458)
-- ---------------------------------------------------------------------------

/-- One entry of a method's parameter schema (`APIParameter`).  `Option`
fields model the `'field' in parm` presence checks of the source. -/
structure APIParameter where
  key : String
  /-- here `none` models a spec without a `type` property -/
  type : Option String := none
  optional : Bool := false
  default : Option JSValue := none
  interpretAsNull : Option (List JSValue) := none
  min : Option ℚ := none
  max : Option ℚ := none
  minLength : Option ℚ := none
  maxLength : Option ℚ := none
  allowedValues : Option (List JSValue) := none

/-- The `VerificationResult` objects produced by `checkParameter`:
`newValue` is `none` when the property is absent on the returned object. -/
structure ParmCheck where
  passed : Bool
  newValue : Option JSValue := none
  reason : Option String := none
  errorCode : Option String := none
deriving DecidableEq, Repr

/-- The `JSON.parse` builtin is an external collaborator; the embedding
takes it as a function argument (no verified property depends on its
behaviour). -/
abbrev JsonParse := String → Option JSValue

/-- The `switch(parm.type)` block: given the type tag and the trimmed
string, returns `(typeCheckPassed, newValue)` exactly as the source
mutates them.  An unknown type tag falls through the switch with
`typeCheckPassed = false` and the string value unchanged. -/
def typeCoerce (jsonParse : JsonParse) (ty : String) (t : String) : Bool × JSValue :=
  if ty = "int" || ty = "integer" then
    if intMatch t then (true, vnum (digitsToNat t : ℚ)) else (false, vstr t)
  else if ty = "float" || ty = "double" then
    if floatMatch t then (true, vnum (floatValue t)) else (false, vstr t)
  else if ty = "datetime" then
    (datetimeMatch t, vstr t)
  else if ty = "date" then
    (dateMatch t, vstr t)
  else if ty = "boolean" || ty = "bool" then
    if t = "true" || t = "1" then (true, vbool true)
    else if t = "false" || t = "0" then (true, vbool false)
    else (false, vstr t)
  else if ty = "char" then
    (t.length = 1, vstr t)
  else if ty = "string" then
    (t.length > 0, vstr t)
  else if ty = "sha256" then
    (sha256Match t, vstr t)
  else if ty = "uuid" then
    (uuidMatch t, vstr t)
  else if ty = "json" then
    match jsonParse t with
    | some obj => (true, obj)
    | none => (false, vstr t)
  else
    (false, vstr t)

/-- check `'min' in parm && newValue < parm.min` -/
def minViolated (parm : APIParameter) (v : JSValue) : Bool :=
  match parm.min with
  | some m => jsLtNum v m
  | none => false

/-- check `'max' in parm && newValue > parm.max` -/
def maxViolated (parm : APIParameter) (v : JSValue) : Bool :=
  match parm.max with
  | some m => jsGtNum v m
  | none => false

/-- check `'maxLength' in parm && newValue.length > parm.maxLength` -/
def maxLengthViolated (parm : APIParameter) (v : JSValue) : Bool :=
  match parm.maxLength, jsLength v with
  | some m, some len => (len : ℚ) > m
  | _, _ => false

/-- check `'minLength' in parm && newValue.length < parm.minLength` -/
def minLengthViolated (parm : APIParameter) (v : JSValue) : Bool :=
  match parm.minLength, jsLength v with
  | some m, some len => (len : ℚ) < m
  | _, _ => false

/-- check `'allowedValues' in parm && !parm.allowedValues.includes(newValue)` -/
def allowedViolated (parm : APIParameter) (v : JSValue) : Bool :=
  match parm.allowedValues with
  | some vs => !vs.contains v
  | none => false

/-- First branch of `checkParameter`: the parameter is absent, `undefined`
or `null` in the input map. -/
def checkMissing (parm : APIParameter) : Option ParmCheck :=
  if parm.optional then
    some { passed := true,
           newValue := some (match parm.default with
                             | some d => d
                             | none => vnull) }
  else
    some { passed := false,
           reason := some ("Required parameter " ++ parm.key ++ " is missing."),
           errorCode := some PARAM_MISSING }

/-- The checks of `checkParameter` after the interpretAsNull test, in
source order: type, min, max, maxLength, minLength, allowedValues. -/
def checkTyped (parm : APIParameter) (ty : String) (typeCheckPassed : Bool)
    (newValue : JSValue) : Option ParmCheck :=
  if !typeCheckPassed then
    some { passed := false,
           reason := some ("Parameter " ++ parm.key ++ " has the wrong type, expected " ++ ty ++ "."),
           errorCode := some PARAM_TYPE }
  else if minViolated parm newValue then
    some { passed := false,
           reason := some ("Parameter " ++ parm.key ++ " is too small."),
           errorCode := some PARAM_RANGE }
  else if maxViolated parm newValue then
    some { passed := false,
           reason := some ("Parameter " ++ parm.key ++ " is too big."),
           errorCode := some PARAM_RANGE }
  else if maxLengthViolated parm newValue then
    some { passed := false,
           reason := some ("Parameter " ++ parm.key ++ " is too long."),
           errorCode := some PARAM_RANGE }
  else if minLengthViolated parm newValue then
    some { passed := false,
           reason := some ("Parameter " ++ parm.key ++ " is too short."),
           errorCode := some PARAM_RANGE }
  else if allowedViolated parm newValue then
    some { passed := false,
           reason := some ("Parameter " ++ parm.key ++ " has an invalid value."),
           errorCode := some PARAM_RANGE }
  else
    some { passed := true, newValue := some newValue }

/-- Embedding of `APIUtils.checkParameter`.  Returns `none` when the
JavaScript function returns `undefined`, which happens exactly on the
fall-through path: the parameter is present and non-null but the spec has
no `type` property. -/
def checkParameter (jsonParse : JsonParse) (parm : APIParameter) (parms : Parms) :
    Option ParmCheck :=
  match lookupParm parms parm.key with
  | none => checkMissing parm
  | some vundef => checkMissing parm
  | some vnull => checkMissing parm
  | some v =>
    match parm.type with
    | none => none
    | some ty =>
      let t := jsTrim (jsToString v)
      let tc := typeCoerce jsonParse ty t
      -- `if(newValue === null) newValue = parms[parm.key]`
      let newValue := if tc.2 = vnull then v else tc.2
      match parm.interpretAsNull with
      | some nulls =>
        if nulls.contains newValue then
          some { passed := true, newValue := some vnull }
        else checkTyped parm ty tc.1 newValue
      | none => checkTyped parm ty tc.1 newValue

/-- A `jsonParse` instance used by concrete witnesses; no witness exercises
the `json` type tag, so the trivial parser suffices for evaluation. -/
def noJson : JsonParse := fun _ => none

-- ---------------------------------------------------------------------------
-- Permission resolver  (APIUtils.js lines 136-272)
-- ---------------------------------------------------------------------------

/-- One row of the `api_permissions` hierarchy table:
`(permission_key, parent_key)`. -/
structure PermRow where
  permission_key : String
  parent_key : String
deriving DecidableEq, Repr

/-- query `SELECT * FROM api_permissions WHERE parent_key=?`, projected to the
keys, in table order. -/
def childrenOf (rows : List PermRow) (permission : String) : List String :=
  (rows.filter (fun r => r.parent_key = permission)).map (fun r => r.permission_key)

/-- The inner dedup loop `for(let decendant of decendants) { if not
included, push }`. -/
def pushNew (acc : List String) (ds : List String) : List String :=
  ds.foldl (fun res d => if res.contains d then res else res ++ [d]) acc

/-- The `for(let child of children)` loop of `getPermissionDecendants`
(also, with the user's granted keys as `children`, the loop of
`getUserPermissions`): skips a child already collected, otherwise pushes it
and merges its recursively computed descendants.  `rec` is the recursive
call at the remaining fuel; a `none` from it (exhausted fuel, i.e. the
JavaScript recursion not terminating) aborts the whole computation. -/
def decendantsLoop (rec : String → Option (List String)) :
    List String → List String → Option (List String)
  | [], result => some result
  | c :: cs, result =>
    if result.contains c then decendantsLoop rec cs result
    else
      match rec c with
      | none => none
      | some ds => decendantsLoop rec cs (pushNew (result ++ [c]) ds)

/-- Embedding of `APIUtils.getPermissionDecendants`.  The JavaScript
recursion has no termination guard; the fuel parameter makes it a total
Lean function, with `none` modelling a recursion depth the fuel cannot
cover (in particular, divergence on a cyclic hierarchy: no fuel
suffices). -/
def getPermissionDecendants (rows : List PermRow) : Nat → String → Option (List String)
  | 0, _ => none
  | fuel + 1, permission =>
    decendantsLoop (getPermissionDecendants rows fuel) (childrenOf rows permission) []

/-- One row of `api_user_permissions`: `(user_id, permission_key)`. -/
abbrev GrantRow := Nat × String

/-- query `SELECT * FROM api_user_permissions WHERE user_id=?`, projected to the
keys, in table order. -/
def grantedKeys (grants : List GrantRow) (userID : Nat) : List String :=
  (grants.filter (fun g => g.1 = userID)).map (fun g => g.2)

/-- Embedding of `APIUtils.getUserPermissions`.  The outer `Option` is the
fuel/divergence layer; the inner `Option` is the JavaScript return value:
`none` is the literal `null` returned for an absent user id, `some l` the
permissions array. -/
def getUserPermissions (rows : List PermRow) (grants : List GrantRow) (fuel : Nat)
    (userID : Option Nat) : Option (Option (List String)) :=
  match userID with
  | none => some none
  | some uid =>
    match decendantsLoop (getPermissionDecendants rows fuel) (grantedKeys grants uid) [] with
    | none => none
    | some l => some (some l)

/-- Embedding of `APIUtils.userHasPermissions`.  `none` models divergence
of the underlying permission resolution. -/
def userHasPermissions (rows : List PermRow) (grants : List GrantRow) (fuel : Nat)
    (userID : Option Nat) (permissions : List String) : Option Bool :=
  if permissions.isEmpty then some true
  else
    match userID with
    | none => some false
    | some uid =>
      match getUserPermissions rows grants fuel (some uid) with
      | none => none
      | some none => none  -- unreachable: a non-null user id never yields null
      | some (some userPerms) => some (permissions.all (fun p => userPerms.contains p))

/-- The `VerificationResult` objects of `allowedToExecuteMethod` /
`canBeExecuted`. -/
structure VerificationResult where
  passed : Bool
  reason : Option String := none
  errorCode : Option String := none
deriving DecidableEq, Repr

/-- A loaded session object as produced by `APIUtils.getSession`. -/
structure SessionObj where
  session_id : Nat
  user_id : Nat
  token : Option String
  start_date : Nat
  expiration_date : Nat
  admin : Bool
deriving DecidableEq, Repr

/-- Authorization requirements of an `APIMethod` (the fields read by
`allowedToExecuteMethod`; the full method record is defined later). -/
structure MethodAuth where
  requireSession : Bool := true
  requireNoSession : Bool := false
  requiredPermissions : List String := []

/-- Embedding of `APIUtils.allowedToExecuteMethod` over the authorization
fields of a method.  `none` models divergence of permission resolution. -/
def allowedToExecuteMethod (rows : List PermRow) (grants : List GrantRow) (fuel : Nat)
    (session : Option SessionObj) (m : MethodAuth) : Option VerificationResult :=
  match session with
  | some s =>
    if m.requireNoSession then
      some { passed := false,
             reason := some "This method is only available to clients that are not logged in",
             errorCode := some PERMISSION_SESSION }
    else
      match userHasPermissions rows grants fuel (some s.user_id) m.requiredPermissions with
      | none => none
      | some true => some { passed := true }
      | some false =>
        some { passed := false,
               reason := some "You do not have the necessary permissions to call this method",
               errorCode := some PERMISSION_MISSING }
  | none =>
    if m.requireSession then
      some { passed := false,
             reason := some "This method is only available to authenticated users",
             errorCode := some PERMISSION_NO_SESSION }
    else
      some { passed := true }

-- ---------------------------------------------------------------------------
-- API responses  (APIUtils.js result wrappers, lines 463-530)
-- ---------------------------------------------------------------------------

/-- The uniform `APIResponse` envelope.  Every field except `success` may
be absent (`none`); for `data` the JavaScript value `null` is `some vnull`.
The `session` field distinguishes absent (`none`), the literal `null`
session-mutation payload of logout (`some none`), and a session object
(`some (some s)`). -/
structure APIResponse where
  success : Bool
  data : Option JSValue := none
  msg : Option String := none
  code : Option String := none
  session : Option (Option SessionObj) := none
  token : Option String := none
deriving DecidableEq, Repr

/-- wrapper `apiUtils.success(data = null)` -/
def mkSuccess (data : JSValue := vnull) : APIResponse :=
  { success := true, data := some data }

/-- wrapper `apiUtils.successSession(data = null, session = null)` -/
def mkSuccessSession (data : JSValue := vnull) (session : Option SessionObj := none) :
    APIResponse :=
  { success := true, data := some data, session := some session }

/-- wrapper `apiUtils.error(msg, code = null, token = null)`: `code` and `token`
are only attached when non-null. -/
def mkError (msg : Option String) (code : Option String := none)
    (token : Option String := none) : APIResponse :=
  { success := false, msg := msg, code := code, token := token }

/-- Deleting a `null`/`undefined` `data` property: turns a `some vnull`
payload into an absent one. -/
def deleteNullData (r : APIResponse) : APIResponse :=
  { r with data := match r.data with
                   | some vnull => none
                   | d => d }

/-- Embedding of `apiUtils.makeClientResponse`: deletes the `data`, `msg`, `code` and
`token` properties when they are `undefined` or `null` (the `Option.none`
string fields are already absent in the embedding, so only the `data`
scrub is observable).  The `session` property is not in the scrub list and
is kept as is. -/
def makeClientResponse (r : APIResponse) : APIResponse :=
  deleteNullData r

-- ---------------------------------------------------------------------------
-- Database tables and transactions  (APIDatabase.js; tables of §6)
-- ---------------------------------------------------------------------------

/-- One row of `api_sessions`.  `session_token` is NULL until the login
handler's UPDATE assigns it. -/
structure SessionRow where
  session_id : Nat
  user_id : Nat
  session_token : Option String := none
  start_date : Nat
  expiration_date : Nat
  last_action : Option Nat := none
  ip : String
  user_agent : String
deriving DecidableEq, Repr

/-- One row of the `api_view_users` view (also standing for `api_users`
where the handlers update it).  `admin` is kept as the raw driver value:
`getSession` re-derives its boolean with a strict `=== 1` comparison. -/
structure UserRow where
  user_id : Nat
  login_name : String
  password_hash : String
  active : Bool
  admin : JSValue
  last_login : Option Nat := none
deriving DecidableEq, Repr

/-- One row of `api_login_tokens`. -/
structure TokenRow where
  ip : String
  user_agent : String
  login_token : String
  expiration_date : Nat
deriving DecidableEq, Repr

/-- The datastore contents visible to the handlers.  `nextSessionId` models
the AUTO_INCREMENT counter of `api_sessions`. -/
structure Tables where
  sessions : List SessionRow := []
  users : List UserRow := []
  loginTokens : List TokenRow := []
  nextSessionId : Nat := 1
deriving DecidableEq, Repr

/-- Connection state: current data plus the snapshot taken at
`startTransaction` (restored by `rollback`, dropped by `commit`). -/
structure DBState where
  data : Tables
  snapshot : Option Tables := none
deriving DecidableEq, Repr

def DBState.startTransaction (db : DBState) : DBState :=
  { db with snapshot := some db.data }

def DBState.commit (db : DBState) : DBState :=
  { db with snapshot := none }

def DBState.rollback (db : DBState) : DBState :=
  { data := db.snapshot.getD db.data, snapshot := none }

-- ---------------------------------------------------------------------------
-- Session manager  (APIUtils.js lines 49-100; session module of part_000)
-- ---------------------------------------------------------------------------

/-- Embedding of `APIUtils.getSession`: loads the session row by id
(`LIMIT 0,1`), LEFT JOINs the user's `admin` flag, and re-derives the
boolean with the source's `session.admin === 1` comparison (a missing user
row joins NULL, which also compares false). -/
def getSession (t : Tables) (sessionID : Nat) : Option SessionObj :=
  match t.sessions.find? (fun s => s.session_id = sessionID) with
  | none => none
  | some s =>
    let adminRaw : JSValue :=
      match t.users.find? (fun u => u.user_id = s.user_id) with
      | some u => u.admin
      | none => vnull
    some { session_id := s.session_id
           user_id := s.user_id
           token := s.session_token
           start_date := s.start_date
           expiration_date := s.expiration_date
           admin := adminRaw == vnum 1 }

/-- Embedding of `APIUtils.establishSession`: looks a live session up by
token, loads its projection, then pushes `last_action` / `expiration_date`
forward by the one-hour renewal window as a side effect.  Returns the
session as loaded **before** the renewal, exactly as the source does. -/
def establishSession (t : Tables) (now : Nat) (sessionToken : String) :
    Option SessionObj × Tables :=
  match t.sessions.find? (fun s => s.session_token = some sessionToken) with
  | none => (none, t)
  | some row =>
    match getSession t row.session_id with
    | none => (none, t)
    | some session =>
      let t' := { t with sessions := t.sessions.map (fun s =>
        if s.session_id = session.session_id then
          { s with last_action := some now, expiration_date := now + 3600 }
        else s) }
      (some session, t')

/-- Embedding of the `deleteSession` helper of the session module
(part_000): `DELETE FROM api_sessions WHERE session_id=?`.  The DELETE
resolves to a truthy result object even when no row matched, so the helper
returns `true` whenever the query does not fail. -/
def deleteSession (t : Tables) (sessionID : Nat) : Bool × Tables :=
  (true, { t with sessions := t.sessions.filter (fun s => ¬s.session_id = sessionID) })

-- ---------------------------------------------------------------------------
-- Method descriptors and the execution pipeline
-- (APIMethod.js; APIUtils.tryExecuteMethod; /multicall handler)
-- ---------------------------------------------------------------------------

/-- Outcome of running a handler on the current table contents: an orderly
`APIResponse` or a raised exception, in both cases with the (possibly
partially mutated) tables. -/
inductive HandlerOutcome where
  | ret (r : APIResponse) (t : Tables)
  | raise (t : Tables)

/-- A handler closure as registered in a method descriptor. -/
abbrev HandlerFn := Parms → Option SessionObj → Tables → HandlerOutcome

/-- An `APIMethod` record (constructor of `APIMethod.js`, with its default
field values). -/
structure APIMethodM where
  path : String
  handler : HandlerFn
  parameters : List APIParameter := []
  requireSession : Bool := true
  requireNoSession : Bool := false
  requiredPermissions : List String := []
  transaction : Bool := true

/-- The authorization projection consumed by `allowedToExecuteMethod`. -/
def APIMethodM.auth (m : APIMethodM) : MethodAuth :=
  { requireSession := m.requireSession
    requireNoSession := m.requireNoSession
    requiredPermissions := m.requiredPermissions }

/-- Result of a pipeline stage in the embedding: an ordinary value, a
JavaScript exception propagating out of the stage, or divergence of the
permission recursion. -/
inductive POut (α : Type) where
  | ok (a : α)
  | thrown (e : JsErr)
  | diverge
deriving DecidableEq, Repr

/-- The `for(let parm of this.parameters)` loop of `APIMethod.canBeExecuted`:
checks each parameter and writes coerced values back into the parameter
bag.  A failed check is returned at once (`some failure`); a `checkParameter`
call that returns `undefined` makes the subsequent `parmCheck.passed` read
throw a `TypeError`. -/
def checkParametersLoop (jsonParse : JsonParse) :
    List APIParameter → Parms → POut (Option VerificationResult × Parms)
  | [], parms => .ok (none, parms)
  | parm :: rest, parms =>
    match checkParameter jsonParse parm parms with
    | none => .thrown .typeError
    | some res =>
      if !res.passed then
        .ok (some { passed := res.passed, reason := res.reason, errorCode := res.errorCode },
             parms)
      else
        let parms' := match res.newValue with
                      | some v => setParm parms parm.key v
                      | none => parms
        checkParametersLoop jsonParse rest parms'

/-- Embedding of `APIMethod.canBeExecuted`: parameter checks, then the
authorization check. -/
def canBeExecuted (jsonParse : JsonParse) (rows : List PermRow) (grants : List GrantRow)
    (fuel : Nat) (m : APIMethodM) (parms : Parms) (session : Option SessionObj) :
    POut (VerificationResult × Parms) :=
  match checkParametersLoop jsonParse m.parameters parms with
  | .thrown e => .thrown e
  | .diverge => .diverge
  | .ok (some failed, parms') => .ok (failed, parms')
  | .ok (none, parms') =>
    match allowedToExecuteMethod rows grants fuel session m.auth with
    | none => .diverge
    | some verif => .ok (verif, parms')

/-- Result of `APIMethod.execute`: the promise resolves with an
`APIResponse` or rejects with an error-code constant. -/
inductive ExecResult where
  | resolved (r : APIResponse)
  | rejected (code : String)
deriving DecidableEq, Repr

/-- Embedding of `APIMethod.execute` (APIMethod.js lines 95-140): opens a
transaction when the method's flag is set, runs the handler, commits iff
the handler's response reports success and rolls back otherwise; a raised
exception is caught, rolls the transaction back and rejects the promise
with `METHOD_ERROR`.  A `null`/`undefined` data payload is deleted from
the resolved response. -/
def executeMethod (m : APIMethodM) (parms : Parms) (session : Option SessionObj)
    (db : DBState) : ExecResult × DBState :=
  let db1 := if m.transaction then db.startTransaction else db
  match m.handler parms session db1.data with
  | .raise t' =>
    let db2 : DBState := { db1 with data := t' }
    (.rejected METHOD_ERROR, if m.transaction then db2.rollback else db2)
  | .ret r t' =>
    let db2 : DBState := { db1 with data := t' }
    let db3 := if m.transaction then (if r.success then db2.commit else db2.rollback) else db2
    (.resolved (deleteNullData r), db3)

/-- Embedding of `APIUtils.tryExecuteMethod` (APIUtils.js lines 102-125).
A failed verification is wrapped into an error response.  When the
method's promise rejects, the `.catch` callback first evaluates
`console.log('Error executing a method', err)` — but no variable `err` is
in scope there (the callback's parameter is `errorCode`), so the callback
itself throws a `ReferenceError` and the function's promise rejects
instead of producing the `METHOD_ERROR` response on the next line. -/
def tryExecuteMethod (jsonParse : JsonParse) (rows : List PermRow) (grants : List GrantRow)
    (fuel : Nat) (m : APIMethodM) (parms : Parms) (session : Option SessionObj)
    (db : DBState) : POut APIResponse × DBState :=
  match canBeExecuted jsonParse rows grants fuel m parms session with
  | .thrown e => (.thrown e, db)
  | .diverge => (.diverge, db)
  | .ok (verif, parms') =>
    if !verif.passed then
      (.ok (mkError verif.reason verif.errorCode), db)
    else
      match executeMethod m parms' session db with
      | (.resolved r, db') => (.ok r, db')
      | (.rejected _, db') => (.thrown .referenceError, db')

/-- lookup `methods.find((method) => method.path === call.method)`: only a string
`method` entry can match a registered path. -/
def findMethod (methods : List APIMethodM) (mv : Option JSValue) : Option APIMethodM :=
  methods.find? (fun m => match mv with
                          | some (vstr p) => m.path = p
                          | _ => false)

/-- Embedding of the `/multicall` handler loop (multicall.js lines 24-53),
from the point where `parms.content.calls` has been validated as an array.
Each entry is the parameter bag of its own sub-call.  Returns the
accumulated response list together with the loop's working `session`
variable (the handler itself wraps the responses in a success envelope).

When `tryExecuteMethod` rejects, the `catch` block evaluates
`apiUtils.error('...', ERROR_CODES.MULTICALL_ERROR)` — but `ERROR_CODES`
is never imported in multicall.js (the module only destructures
`APIModule, APIMethod, apiUtils, db, config` from APIServer.js), so the
catch block throws a `ReferenceError` and the whole multicall fails
instead of recording a `MULTICALL_ERROR` entry. -/
def multicallRun (jsonParse : JsonParse) (rows : List PermRow) (grants : List GrantRow)
    (fuel : Nat) (methods : List APIMethodM) :
    List Parms → Option SessionObj → DBState → List APIResponse →
    POut (List APIResponse × Option SessionObj) × DBState
  | [], session, db, responses => (.ok (responses, session), db)
  | call :: rest, session, db, responses =>
    match findMethod methods (lookupParm call "method") with
    | none =>
      -- unknown route: the entry is silently skipped
      multicallRun jsonParse rows grants fuel methods rest session db responses
    | some m =>
      match tryExecuteMethod jsonParse rows grants fuel m call session db with
      | (.ok callResponse, db') =>
        let responses' := responses ++ [makeClientResponse callResponse]
        -- `if(callResponse.session !== undefined && callResponse.session !== null)`
        let session' := match callResponse.session with
                        | some (some s) => some s
                        | _ => session
        if lookupParm call "breaking" = some (vbool true) ∧ callResponse.success = false then
          (.ok (responses', session'), db')
        else
          multicallRun jsonParse rows grants fuel methods rest session' db' responses'
      | (.thrown _, db') => (.thrown .referenceError, db')
      | (.diverge, db') => (.diverge, db')

-- ---------------------------------------------------------------------------
-- Session module handlers (src/unnamed/part_000)
-- ---------------------------------------------------------------------------

/-- The `/session/logout` handler (part_000 lines 135-151): deletes the
session row, then returns `successSession(null, null)` so that, per the
source comment, "subsequent calls (in a multicall) are logged out".
Reading `session.session_id` of a null session would throw. -/
def logoutHandler : HandlerFn := fun _ session t =>
  match session with
  | none => .raise t
  | some s =>
    let del := deleteSession t s.session_id
    if !del.1 then
      .ret (mkError (some "MySQL-Error while deleting the session")) del.2
    else
      .ret (mkSuccessSession vnull none) del.2

/-- The `/session/logout` method descriptor as registered in part_000. -/
def logoutMethod : APIMethodM :=
  { path := "/session/logout"
    handler := logoutHandler
    parameters := []
    requireSession := true
    requireNoSession := false
    requiredPermissions := []
    transaction := true }

/-- The client identity of a request: IP and the optional user-agent
header. -/
structure RequestInfo where
  ip : String
  userAgentHeader : Option String := none
deriving DecidableEq, Repr

/-- The user-agent normalization shared by the session handlers: default
`'NO USER AGENT'`, truncated to 200 characters. -/
def normalizeUA (req : RequestInfo) : String :=
  let ua := req.userAgentHeader.getD "NO USER AGENT"
  if ua.length > 200 then ⟨ua.data.take 200⟩ else ua

/-- Opaque marker for the `{ session : loadedSession }` data payload of a
successful login; the object itself is outside the modelled value universe
and no verified property observes it (the session-mutation payload carries
the session object). -/
def loginDataMarker : JSValue := vstr "[object: session]"

/-- Embedding of the `/session/login` handler (part_000 lines 65-132).
`sha256` is the hashing collaborator, `newUUID` the token produced by
`getUUID()`, `now` the database clock.  All failure paths return orderly
error responses; the success path deletes the consumed login tokens,
inserts a new session row, assigns it the fresh token, reloads it and
records `last_login`. -/
def loginHandler (sha256 : String → String) (req : RequestInfo) (now : Nat)
    (newUUID : String) (username password_hash : String) (t : Tables) :
    APIResponse × Tables :=
  match t.users.find? (fun u => u.login_name = username) with
  | none => (mkError (some "User not found"), t)
  | some user =>
    if !user.active then (mkError (some "User account not activated"), t)
    else
      let ua := normalizeUA req
      match t.loginTokens.find? (fun tk => tk.ip = req.ip ∧ tk.user_agent = ua) with
      | none => (mkError (some "No valid login-token found for your client"), t)
      | some tokenRow =>
        if jsToLower (sha256 (user.password_hash ++ tokenRow.login_token)) ≠
            jsToLower password_hash then
          (mkError (some "Wrong password"), t)
        else
          let t1 := { t with loginTokens :=
            t.loginTokens.filter (fun tk => ¬(tk.ip = req.ip ∧ tk.user_agent = ua)) }
          let sid := t1.nextSessionId
          let newRow : SessionRow :=
            { session_id := sid, user_id := user.user_id, session_token := none,
              start_date := now, expiration_date := now + 3600,
              ip := req.ip, user_agent := ua }
          let t2 := { t1 with sessions := t1.sessions ++ [newRow],
                              nextSessionId := sid + 1 }
          let t3 := { t2 with sessions := t2.sessions.map (fun s =>
            if s.session_id = sid then { s with session_token := some newUUID } else s) }
          match getSession t3 sid with
          | none => (mkError (some "Error while loading the session"), t3)
          | some loadedSession =>
            let t4 := { t3 with users := t3.users.map (fun u =>
              if u.user_id = user.user_id then { u with last_login := some now } else u) }
            (mkSuccessSession loginDataMarker (some loadedSession), t4)

-- ---------------------------------------------------------------------------
-- Closure relation used by the permission-resolver specifications
-- ---------------------------------------------------------------------------

/-- The "child of" edge of the permission hierarchy: `b` is declared with
parent `a`. -/
def childEdge (rows : List PermRow) (a b : String) : Prop :=
  b ∈ childrenOf rows a

/-- holds when `b` is a (strict) descendant of `a`: reachable from `a` by one or more
child edges. -/
def Descendant (rows : List PermRow) (a b : String) : Prop :=
  Relation.TransGen (childEdge rows) a b

/-- Termination of the descendant recursion on a key, over all fuels. -/
def DecendantsTerminate (rows : List PermRow) (k : String) : Prop :=
  ∃ fuel l, getPermissionDecendants rows fuel k = some l

/-- The coerced value against which `checkParameter` tests membership of
the `interpretAsNull` set: the value produced by the type switch, with a
`null` coercion result replaced by the original input value. -/
def coercedValue (jsonParse : JsonParse) (ty : String) (v : JSValue) : JSValue :=
  let tc := typeCoerce jsonParse ty (jsTrim (jsToString v))
  if tc.2 = vnull then v else tc.2

-- ---------------------------------------------------------------------------
-- Concrete fixtures used by witnesses and counterexamples
-- ---------------------------------------------------------------------------

/-- A user on record: id 7, active, admin. -/
def aliceRow : UserRow :=
  { user_id := 7, login_name := "alice", password_hash := "pw", active := true,
    admin := vnum 1 }

/-- Initial tables: one live session (id 1, token "tok-1") owned by user 7. -/
def t0 : Tables :=
  { sessions := [{ session_id := 1, user_id := 7, session_token := some "tok-1",
                   start_date := 0, expiration_date := 100, ip := "ip",
                   user_agent := "ua" }],
    users := [aliceRow],
    loginTokens := [],
    nextSessionId := 2 }

def db0 : DBState := { data := t0 }

/-- The session object of the live session of `t0`. -/
def s0 : SessionObj :=
  { session_id := 1, user_id := 7, token := some "tok-1", start_date := 0,
    expiration_date := 100, admin := true }

/-- A transactional method whose handler raises an unexpected failure. -/
def boomMethod : APIMethodM :=
  { path := "/boom", handler := fun _ _ t => .raise t, parameters := [],
    requireSession := false, requireNoSession := false,
    requiredPermissions := [], transaction := true }

/-- A session-requiring, non-transactional method whose handler returns a
plain success. -/
def probeMethod : APIMethodM :=
  { path := "/probe", handler := fun _ _ t => .ret (mkSuccess (vstr "ran")) t,
    parameters := [], requireSession := true, requireNoSession := false,
    requiredPermissions := [], transaction := false }

/-- A transactional method whose handler writes to the tables and then
returns an orderly failure response. -/
def failMethod : APIMethodM :=
  { path := "/fail",
    handler := fun _ _ t => .ret (mkError (some "nope")) { t with nextSessionId := 99 },
    parameters := [], requireSession := false, requireNoSession := false,
    requiredPermissions := [], transaction := true }

def boomCall : Parms := [("method", vstr "/boom")]
def probeCall : Parms := [("method", vstr "/probe")]
def logoutCall : Parms := [("method", vstr "/session/logout")]

/-- A two-key cyclic permission hierarchy: B is a child of A and A a child
of B. -/
def cycRows : List PermRow := [⟨"B", "A"⟩, ⟨"A", "B"⟩]

/-- Tables before a login: no sessions, one user, one issued login token
for client `("ip", "agent")`. -/
def tL : Tables :=
  { sessions := [], users := [aliceRow],
    loginTokens := [⟨"ip", "agent", "lt", 50⟩], nextSessionId := 5 }

/-- A stand-in for the SHA-256 collaborator in concrete runs (the pipeline
only compares its output for equality). -/
def hashFix : String → String := fun s => s ++ "#h"

def reqFix : RequestInfo := ⟨"ip", some "agent"⟩

/-- The session object created by the fixture login. -/
def sessFix : SessionObj :=
  { session_id := 5, user_id := 7, token := some "uuid-1", start_date := 1000,
    expiration_date := 4600, admin := true }

/-- The response of the fixture login. -/
def loginFixResponse : APIResponse := mkSuccessSession loginDataMarker (some sessFix)

/-- The tables after the fixture login: token consumed, session row
inserted and assigned the fresh token, `last_login` recorded. -/
def loginFixTables : Tables :=
  { sessions := [{ session_id := 5, user_id := 7, session_token := some "uuid-1",
                   start_date := 1000, expiration_date := 4600, last_action := none,
                   ip := "ip", user_agent := "agent" }],
    users := [{ aliceRow with last_login := some 1000 }],
    loginTokens := [], nextSessionId := 6 }

/-- One-edge acyclic hierarchy: `reports.export` is a child of
`reports`. -/
def reportRows : List PermRow := [⟨"reports.export", "reports"⟩]

-- ===========================================================================
-- THEOREMS
-- ===========================================================================

/-- C1 (code bug).  The claim says an unexpected handler failure is
caught by the pipeline and surfaced as a `METHOD_ERROR` response.  In the
code, `APIMethod.execute` does catch the failure, rolls the transaction
back and rejects its promise with `METHOD_ERROR` (second conjunct) — but
the `.catch` callback of `APIUtils.tryExecuteMethod` logs a variable
`err` that is not bound in its scope, so the callback throws a
`ReferenceError` before building the `METHOD_ERROR` response, and the
failure propagates past the pipeline as a rejection instead of being
returned as a response (first conjunct). -/
theorem tryExecuteMethod_handler_throw_escapes_as_referenceError :
    tryExecuteMethod noJson [] [] 0 boomMethod [] none db0
      = (.thrown .referenceError, db0) ∧
    executeMethod boomMethod [] none db0 = (.rejected METHOD_ERROR, db0) := by
  constructor <;> rfl

/-- C2 counterexample.  The claim states that for a transactional
method, in every non-success case "the caller receives a METHOD_ERROR
failure".  A transactional handler that returns an orderly failure
response refutes this: the transaction is rolled back (the handler's write
to `nextSessionId` does not persist — third conjunct) but the caller
receives the handler's own response, which is neither a rejection with
`METHOD_ERROR` nor a response carrying the `METHOD_ERROR` code. -/
theorem executeMethod_orderly_failure_no_method_error :
    failMethod.transaction = true ∧
    executeMethod failMethod [] none db0
      = (.resolved { success := false, msg := some "nope" }, db0) ∧
    ¬((executeMethod failMethod [] none db0).1 = .rejected METHOD_ERROR ∨
      ∃ r, (executeMethod failMethod [] none db0).1 = .resolved r ∧
        r.code = some METHOD_ERROR) := by
  refine ⟨rfl, rfl, ?_⟩
  rintro (h | ⟨r, hr, hc⟩)
  · exact absurd h (by decide)
  · have : r = { success := false, msg := some "nope" } := by
      have h' : ExecResult.resolved r
          = ExecResult.resolved { success := false, msg := some "nope" } := by
        rw [← hr]; rfl
      exact ExecResult.resolved.inj h'
    subst this
    simp at hc

/-- C2 (amended).  For every method with the transactional flag set: a
transaction is opened before the handler runs (the handler sees the
pre-transaction tables), it is committed if and only if the handler's
response reports success, and in every other case the tables are restored
to their pre-transaction contents (no partial writes persist).  When the
handler returns an orderly response the caller receives that response
(normalized); only when the handler raises is the promise rejected with
`METHOD_ERROR`. -/
theorem executeMethod_transactional_spec (m : APIMethodM) (parms : Parms)
    (session : Option SessionObj) (db : DBState) (hm : m.transaction = true) :
    (∀ r t', m.handler parms session db.data = .ret r t' →
       executeMethod m parms session db =
         (.resolved (deleteNullData r),
          if r.success then { data := t', snapshot := none }
          else { data := db.data, snapshot := none })) ∧
    (∀ t', m.handler parms session db.data = .raise t' →
       executeMethod m parms session db =
         (.rejected METHOD_ERROR, { data := db.data, snapshot := none })) := by
  constructor
  · intro r t' h
    simp only [executeMethod, hm, if_true, DBState.startTransaction]
    rw [h]
    by_cases hs : r.success
    · simp [hs, DBState.commit]
    · simp [hs, DBState.rollback]
  · intro t' h
    simp only [executeMethod, hm, if_true, DBState.startTransaction]
    rw [h]
    simp [DBState.rollback]

/-- Witness for C2's amended theorem at a concrete transactional method:
the orderly-failure branch applies and shows rollback plus the handler's
own response. -/
theorem executeMethod_transactional_spec_witness :
    failMethod.transaction = true ∧
    executeMethod failMethod [] none db0
      = (.resolved (deleteNullData (mkError (some "nope"))),
         if (mkError (some "nope")).success
         then { data := { t0 with nextSessionId := 99 }, snapshot := none }
         else { data := db0.data, snapshot := none }) :=
  ⟨rfl, (executeMethod_transactional_spec failMethod [] none db0 rfl).1
    (mkError (some "nope")) { t0 with nextSessionId := 99 } rfl⟩

/-- C3 (code bug).  The claim says an unexpected failure while
dispatching one multicall entry is converted into a `MULTICALL_ERROR`
response for that entry alone, with sibling entries still executing.  In
the code the catch block references `ERROR_CODES`, which multicall.js
never imports, so the catch itself throws a `ReferenceError`: the whole
multicall handler fails, no `MULTICALL_ERROR` slot is recorded, and the
sibling entry's response is lost. -/
theorem multicall_entry_failure_aborts_whole_batch :
    multicallRun noJson [] [] 0 [boomMethod, probeMethod]
        [boomCall, probeCall] (some s0) db0 []
      = (.thrown .referenceError, db0) := by
  rfl

/-- C4 (code bug).  The claim (and the source's own comment in the
logout handler) says a session-mutation payload replaces the working
session for subsequent entries of the batch, so a logout logs out the
later entries.  The logout payload is the literal `null`, and the
propagation condition `callResponse.session !== null` excludes it: after
a logout entry the working session is still the original session object
(final component `some s0`), and a subsequent session-requiring method
executes successfully under that stale session instead of being rejected
as logged out. -/
theorem multicall_logout_payload_not_propagated :
    multicallRun noJson [] [] 0 [logoutMethod, probeMethod]
        [logoutCall, probeCall] (some s0) db0 []
      = (.ok ([{ success := true, session := some none },
               { success := true, data := some (vstr "ran") }],
              some s0),
         { data := { t0 with sessions := [] }, snapshot := none }) := by
  rfl

/-- C9 (confirmed).  Required permission keys are only enforced when a
session is present: a method with `requireSession = false`,
`requireNoSession = false` and any (non-empty) required-permission list
passes the authorization check for a caller presenting no session — the
permission lookup is never consulted (the result is independent of the
permission tables and fuel). -/
theorem anonymous_caller_never_tested_against_permissions
    (rows : List PermRow) (grants : List GrantRow) (fuel : Nat) (m : MethodAuth)
    (h1 : m.requireSession = false) (h2 : m.requireNoSession = false)
    (h3 : m.requiredPermissions ≠ []) :
    allowedToExecuteMethod rows grants fuel none m = some { passed := true } := by
  simp [allowedToExecuteMethod, h1]

/-- Witness for C9 at a concrete method requiring the permission `p`. -/
theorem anonymous_caller_never_tested_against_permissions_witness :
    ({ requireSession := false, requireNoSession := false,
       requiredPermissions := ["p"] } : MethodAuth).requireSession = false ∧
    allowedToExecuteMethod [] [] 0 none
        { requireSession := false, requireNoSession := false,
          requiredPermissions := ["p"] }
      = some { passed := true } :=
  ⟨rfl, anonymous_caller_never_tested_against_permissions [] [] 0
    { requireSession := false, requireNoSession := false, requiredPermissions := ["p"] }
    rfl rfl (by decide)⟩

/-- C10 (confirmed).  The parameter validator is not total: for a
Parameter Spec without a `type` tag and an input map in which the spec's
key is present and non-null, `checkParameter` falls off the end of the
function and returns `undefined` (`none` in the embedding) instead of a
verdict; the caller `canBeExecuted` then dereferences `.passed` on that
`undefined` value and throws a `TypeError`. -/
theorem checkParameter_without_type_returns_undefined
    (jsonParse : JsonParse) (parm : APIParameter) (parms : Parms) (v : JSValue)
    (rows : List PermRow) (grants : List GrantRow) (fuel : Nat)
    (m : APIMethodM) (rest : List APIParameter) (session : Option SessionObj)
    (hty : parm.type = none) (hv : lookupParm parms parm.key = some v)
    (hnull : v ≠ vnull) (hundef : v ≠ vundef) (hm : m.parameters = parm :: rest) :
    checkParameter jsonParse parm parms = none ∧
    canBeExecuted jsonParse rows grants fuel m parms session = .thrown .typeError := by
  have hcp : checkParameter jsonParse parm parms = none := by
    unfold checkParameter
    rw [hv]
    cases v with
    | vnull => exact absurd rfl hnull
    | vundef => exact absurd rfl hundef
    | vstr s => rw [hty]
    | vnum q => rw [hty]
    | vbool b => rw [hty]
  refine ⟨hcp, ?_⟩
  unfold canBeExecuted
  rw [hm]
  unfold checkParametersLoop
  rw [hcp]

/-- Witness for C10: a spec with no type tag and a present string value. -/
theorem checkParameter_without_type_returns_undefined_witness :
    ({ key := "a" } : APIParameter).type = none ∧
    lookupParm [("a", vstr "x")] "a" = some (vstr "x") ∧
    checkParameter noJson { key := "a" } [("a", vstr "x")] = none ∧
    canBeExecuted noJson [] [] 0
        { path := "/m", handler := fun _ _ t => .raise t, parameters := [{ key := "a" }] }
        [("a", vstr "x")] none
      = .thrown .typeError := by
  refine ⟨rfl, by decide, ?_⟩
  exact checkParameter_without_type_returns_undefined noJson { key := "a" }
    [("a", vstr "x")] (vstr "x") [] [] 0
    { path := "/m", handler := fun _ _ t => .raise t, parameters := [{ key := "a" }] }
    [] none rfl (by decide) (by decide) (by decide) rfl

/-- C7 counterexample.  The claim says membership of the *original raw
value* in the `interpretAsNull` set forces acceptance with the null
sentinel even on a failed type check.  Input refuting it: spec
`{key := "a", type := "int", interpretAsNull := [" x "]}` with raw value
`" x "`.  The raw value is a member of the set, yet the code tests the
*coerced* (trimmed) value `"x"` for membership, finds none, and rejects
the field with `PARAM_TYPE`. -/
theorem interpretAsNull_raw_membership_not_honored :
    ([vstr " x "].contains (vstr " x ") = true) ∧
    checkParameter noJson
        { key := "a", type := some "int", interpretAsNull := some [vstr " x "] }
        [("a", vstr " x ")]
      = some { passed := false,
               reason := some "Parameter a has the wrong type, expected int.",
               errorCode := some PARAM_TYPE } := by
  constructor
  · decide
  · rfl

/-- C7 (amended).  After type coercion, membership of the *coerced*
value (the value produced by the type switch, with a null coercion result
replaced by the original input) in the spec's `interpretAsNull` set forces
the field to the null sentinel and acceptance, regardless of the
type-check outcome — the rule does take precedence over a failed type
check, but it tests the coerced value, not the original raw value. -/
theorem interpretAsNull_overrides_failed_type_check
    (jsonParse : JsonParse) (parm : APIParameter) (parms : Parms) (v : JSValue)
    (ty : String) (nulls : List JSValue)
    (hv : lookupParm parms parm.key = some v)
    (hnull : v ≠ vnull) (hundef : v ≠ vundef)
    (hty : parm.type = some ty) (hin : parm.interpretAsNull = some nulls)
    (hmem : nulls.contains (coercedValue jsonParse ty v) = true) :
    checkParameter jsonParse parm parms = some { passed := true, newValue := some vnull } := by
  unfold checkParameter
  rw [hv]
  have hgoal : ∀ w : JSValue, w = v →
      (match parm.type with
       | none => (none : Option ParmCheck)
       | some ty' =>
         let t := jsTrim (jsToString w)
         let tc := typeCoerce jsonParse ty' t
         let newValue := if tc.2 = vnull then w else tc.2
         match parm.interpretAsNull with
         | some ns =>
           if ns.contains newValue then some { passed := true, newValue := some vnull }
           else checkTyped parm ty' tc.1 newValue
         | none => checkTyped parm ty' tc.1 newValue)
      = some { passed := true, newValue := some vnull } := by
    intro w hw
    subst hw
    rw [hty, hin]
    simp only [coercedValue] at hmem
    have hmem' : (if (typeCoerce jsonParse ty (jsTrim (jsToString w))).2 = vnull then w
                  else (typeCoerce jsonParse ty (jsTrim (jsToString w))).2) ∈ nulls := by
      simpa using hmem
    simp [hmem']
  cases v with
  | vnull => exact absurd rfl hnull
  | vundef => exact absurd rfl hundef
  | vstr s => exact hgoal (vstr s) rfl
  | vnum q => exact hgoal (vnum q) rfl
  | vbool b => exact hgoal (vbool b) rfl

/-- Witness for C7's amended theorem: type check on `" x "` as `int`
fails, but the trimmed coerced value `"x"` is in the set, so the field is
accepted as null. -/
theorem interpretAsNull_overrides_failed_type_check_witness :
    ([vstr "x"].contains (coercedValue noJson "int" (vstr " x ")) = true) ∧
    checkParameter noJson
        { key := "a", type := some "int", interpretAsNull := some [vstr "x"] }
        [("a", vstr " x ")]
      = some { passed := true, newValue := some vnull } :=
  ⟨by decide,
   interpretAsNull_overrides_failed_type_check noJson
     { key := "a", type := some "int", interpretAsNull := some [vstr "x"] }
     [("a", vstr " x ")] (vstr " x ") "int" [vstr "x"]
     (by decide) (by decide) (by decide) rfl rfl (by decide)⟩

/-- C5 counterexample.  The claim says `effectivePermissions` applied
to an absent user identifier returns the empty set; the code returns the
literal `null` (documented in its own JSDoc), not an empty array. -/
theorem getUserPermissions_absent_user_returns_null :
    getUserPermissions [] [] 1 none = some none ∧
    getUserPermissions [] [] 1 none ≠ some (some []) := by
  constructor
  · rfl
  · decide

/-- Reading `List.contains` as membership (the `includes` calls of the source). -/
theorem contains_iff {α : Type} [DecidableEq α] {l : List α} {a : α} :
    l.contains a = true ↔ a ∈ l :=
  List.elem_iff

/-- Unfolding equation of the inner dedup fold. -/
theorem pushNew_cons (acc : List String) (d : String) (ds : List String) :
    pushNew acc (d :: ds)
      = pushNew (if acc.contains d then acc else acc ++ [d]) ds := rfl

/-- The dedup fold collects exactly the union. -/
theorem mem_pushNew {acc ds : List String} {x : String} :
    x ∈ pushNew acc ds ↔ x ∈ acc ∨ x ∈ ds := by
  induction ds generalizing acc with
  | nil => simp [pushNew]
  | cons d ds ih =>
    rw [pushNew_cons]
    by_cases hd : acc.contains d = true
    · rw [if_pos hd, ih]
      have hd' : d ∈ acc := contains_iff.mp hd
      constructor
      · rintro (h | h)
        · exact Or.inl h
        · exact Or.inr (List.mem_cons_of_mem _ h)
      · rintro (h | h)
        · exact Or.inl h
        · rcases List.mem_cons.mp h with rfl | h
          · exact Or.inl hd'
          · exact Or.inr h
    · rw [if_neg hd, ih]
      simp [List.mem_append, List.mem_cons, or_assoc]

/-- The dedup fold only grows its accumulator. -/
theorem subset_pushNew {acc : List String} (ds : List String) : acc ⊆ pushNew acc ds :=
  fun _ hx => mem_pushNew.mpr (Or.inl hx)

/-- The dedup fold preserves freedom from duplicates. -/
theorem pushNew_nodup {acc : List String} (ds : List String) (h : acc.Nodup) :
    (pushNew acc ds).Nodup := by
  induction ds generalizing acc with
  | nil => exact h
  | cons d ds ih =>
    rw [pushNew_cons]
    by_cases hd : acc.contains d = true
    · rw [if_pos hd]; exact ih h
    · rw [if_neg hd]
      refine ih ?_
      have hd' : d ∉ acc := fun hm => hd (contains_iff.mpr hm)
      simp [List.nodup_append, h, hd']

/-- Unfolding equation of the child loop. -/
theorem decendantsLoop_cons (rec : String → Option (List String)) (c : String)
    (cs acc : List String) :
    decendantsLoop rec (c :: cs) acc =
      if acc.contains c then decendantsLoop rec cs acc
      else match rec c with
           | none => none
           | some ds => decendantsLoop rec cs (pushNew (acc ++ [c]) ds) := rfl

/-- The loop only ever adds to its accumulator. -/
theorem decendantsLoop_subset (rec : String → Option (List String)) :
    ∀ cs acc out, decendantsLoop rec cs acc = some out → acc ⊆ out := by
  intro cs
  induction cs with
  | nil =>
    intro acc out h
    cases h
    exact fun _ hx => hx
  | cons c cs ih =>
    intro acc out h
    rw [decendantsLoop_cons] at h
    by_cases hc : acc.contains c = true
    · rw [if_pos hc] at h; exact ih acc out h
    · rw [if_neg hc] at h
      cases hrec : rec c with
      | none => rw [hrec] at h; exact absurd h (by simp)
      | some ds =>
        rw [hrec] at h
        intro x hx
        exact ih _ _ h (subset_pushNew _ (List.mem_append_left _ hx))

/-- Every key handed to the loop ends up in its output. -/
theorem decendantsLoop_mem (rec : String → Option (List String)) :
    ∀ cs acc out, decendantsLoop rec cs acc = some out → ∀ c ∈ cs, c ∈ out := by
  intro cs
  induction cs with
  | nil => intro acc out _ c hc; exact absurd hc (List.not_mem_nil c)
  | cons c cs ih =>
    intro acc out h c' hc'
    rw [decendantsLoop_cons] at h
    rcases List.mem_cons.mp hc' with rfl | hmem
    · by_cases hc : acc.contains c' = true
      · rw [if_pos hc] at h
        exact decendantsLoop_subset rec cs acc out h (contains_iff.mp hc)
      · rw [if_neg hc] at h
        cases hrec : rec c' with
        | none => rw [hrec] at h; exact absurd h (by simp)
        | some ds =>
          rw [hrec] at h
          refine decendantsLoop_subset rec cs _ out h ?_
          exact mem_pushNew.mpr
            (Or.inl (List.mem_append_right _ (List.mem_singleton.mpr rfl)))
    · by_cases hc : acc.contains c = true
      · rw [if_pos hc] at h; exact ih acc out h c' hmem
      · rw [if_neg hc] at h
        cases hrec : rec c with
        | none => rw [hrec] at h; exact absurd h (by simp)
        | some ds => rw [hrec] at h; exact ih _ out h c' hmem

/-- Soundness of the loop: every collected key is either initial or below
one of the keys handed to the loop, provided the recursive call is sound
for `R`. -/
theorem decendantsLoop_sound (rec : String → Option (List String))
    (R : String → String → Prop)
    (hrec : ∀ c ds, rec c = some ds → ∀ x ∈ ds, R c x) :
    ∀ cs acc out, decendantsLoop rec cs acc = some out →
      ∀ x ∈ out, x ∈ acc ∨ ∃ c ∈ cs, x = c ∨ R c x := by
  intro cs
  induction cs with
  | nil =>
    intro acc out h x hx
    cases h
    exact Or.inl hx
  | cons c cs ih =>
    intro acc out h x hx
    rw [decendantsLoop_cons] at h
    by_cases hc : acc.contains c = true
    · rw [if_pos hc] at h
      rcases ih acc out h x hx with h1 | ⟨c', hc', hcase⟩
      · exact Or.inl h1
      · exact Or.inr ⟨c', List.mem_cons_of_mem _ hc', hcase⟩
    · rw [if_neg hc] at h
      cases hrec' : rec c with
      | none => rw [hrec'] at h; exact absurd h (by simp)
      | some ds =>
        rw [hrec'] at h
        rcases ih _ out h x hx with h1 | ⟨c', hc', hcase⟩
        · rcases mem_pushNew.mp h1 with h2 | h2
          · rcases List.mem_append.mp h2 with h3 | h3
            · exact Or.inl h3
            · exact Or.inr ⟨c, List.mem_cons_self c cs, Or.inl (List.mem_singleton.mp h3)⟩
          · exact Or.inr ⟨c, List.mem_cons_self c cs, Or.inr (hrec c ds hrec' x h2)⟩
        · exact Or.inr ⟨c', List.mem_cons_of_mem _ hc', hcase⟩

/-- Closedness of the loop under `R`: if the recursive call returns the
exact `R`-closure of its key, then the loop's output is `R`-closed
whenever its accumulator is. -/
theorem decendantsLoop_closed (rec : String → Option (List String))
    (R : String → String → Prop)
    (htrans : ∀ a b c, R a b → R b c → R a c)
    (hsub : ∀ c ds, rec c = some ds → ∀ x ∈ ds, R c x)
    (hsup : ∀ c ds, rec c = some ds → ∀ x, R c x → x ∈ ds) :
    ∀ cs acc out, decendantsLoop rec cs acc = some out →
      (∀ y ∈ acc, ∀ x, R y x → x ∈ acc) →
      ∀ y ∈ out, ∀ x, R y x → x ∈ out := by
  intro cs
  induction cs with
  | nil =>
    intro acc out h hacc
    cases h
    exact hacc
  | cons c cs ih =>
    intro acc out h hacc
    rw [decendantsLoop_cons] at h
    by_cases hc : acc.contains c = true
    · rw [if_pos hc] at h
      exact ih acc out h hacc
    · rw [if_neg hc] at h
      cases hrec' : rec c with
      | none => rw [hrec'] at h; exact absurd h (by simp)
      | some ds =>
        rw [hrec'] at h
        refine ih _ out h ?_
        intro y hy x hRyx
        rcases mem_pushNew.mp hy with h2 | h2
        · rcases List.mem_append.mp h2 with h3 | h3
          · exact subset_pushNew ds (List.mem_append_left _ (hacc y h3 x hRyx))
          · have hyc : y = c := List.mem_singleton.mp h3
            subst hyc
            exact mem_pushNew.mpr (Or.inr (hsup y ds hrec' x hRyx))
        · exact mem_pushNew.mpr
            (Or.inr (hsup c ds hrec' x (htrans c y x (hsub c ds hrec' y h2) hRyx)))

/-- The loop never introduces duplicates. -/
theorem decendantsLoop_nodup (rec : String → Option (List String)) :
    ∀ cs acc out, decendantsLoop rec cs acc = some out → acc.Nodup → out.Nodup := by
  intro cs
  induction cs with
  | nil => intro acc out h hn; cases h; exact hn
  | cons c cs ih =>
    intro acc out h hn
    rw [decendantsLoop_cons] at h
    by_cases hc : acc.contains c = true
    · rw [if_pos hc] at h; exact ih acc out h hn
    · rw [if_neg hc] at h
      cases hrec' : rec c with
      | none => rw [hrec'] at h; exact absurd h (by simp)
      | some ds =>
        rw [hrec'] at h
        refine ih _ out h (pushNew_nodup ds ?_)
        have hd' : c ∉ acc := fun hm => hc (contains_iff.mpr hm)
        simp [List.nodup_append, hn, hd']

/-- Full specification of `getPermissionDecendants`: whenever the
recursion terminates, its output is duplicate-free and is exactly the set
of strict descendants of the key. -/
theorem gpd_spec (rows : List PermRow) :
    ∀ fuel k l, getPermissionDecendants rows fuel k = some l →
      l.Nodup ∧ ∀ x, x ∈ l ↔ Descendant rows k x := by
  intro fuel
  induction fuel with
  | zero => intro k l h; exact absurd h (by simp [getPermissionDecendants])
  | succ n ih =>
    intro k l h
    have h' : decendantsLoop (getPermissionDecendants rows n) (childrenOf rows k) []
        = some l := h
    have hsub : ∀ c ds, getPermissionDecendants rows n c = some ds →
        ∀ x ∈ ds, Descendant rows c x :=
      fun c ds hds x hx => ((ih c ds hds).2 x).mp hx
    have hsup : ∀ c ds, getPermissionDecendants rows n c = some ds →
        ∀ x, Descendant rows c x → x ∈ ds :=
      fun c ds hds x hx => ((ih c ds hds).2 x).mpr hx
    refine ⟨decendantsLoop_nodup _ _ _ _ h' List.nodup_nil, fun x => ⟨?_, ?_⟩⟩
    · intro hx
      rcases decendantsLoop_sound _ (Descendant rows) hsub _ _ _ h' x hx with
        h1 | ⟨c, hc, hcase⟩
      · exact absurd h1 (List.not_mem_nil x)
      · have hedge : Descendant rows k c := Relation.TransGen.single hc
        rcases hcase with rfl | hR
        · exact hedge
        · exact Relation.TransGen.trans hedge hR
    · intro hx
      have hclosed := decendantsLoop_closed _ (Descendant rows)
        (fun _ _ _ hab hbc => Relation.TransGen.trans hab hbc) hsub hsup
        _ _ _ h' (fun y hy => absurd hy (List.not_mem_nil y))
      rcases Relation.TransGen.head'_iff.mp hx with ⟨c, hkc, hcx⟩
      have hcl : c ∈ l := decendantsLoop_mem _ _ _ _ h' c hkc
      rcases Relation.reflTransGen_iff_eq_or_transGen.mp hcx with rfl | htg
      · exact hcl
      · exact hclosed c hcl x htg

/-- C5 (amended).  `getUserPermissions` applied to an absent user
identifier returns the literal `null` (not the empty set); for a present
user, whenever the recursion terminates, it returns exactly the union of
every directly granted key with that key's full descendant closure, with
no key appearing twice in the result. -/
theorem getUserPermissions_spec (rows : List PermRow) (grants : List GrantRow)
    (fuel : Nat) (uid : Nat) (l : List String)
    (h : getUserPermissions rows grants fuel (some uid) = some (some l)) :
    getUserPermissions rows grants fuel none = some none ∧
    l.Nodup ∧
    (∀ x, x ∈ l ↔ ∃ g ∈ grantedKeys grants uid, x = g ∨ Descendant rows g x) := by
  have hu : getUserPermissions rows grants fuel (some uid)
      = (match decendantsLoop (getPermissionDecendants rows fuel)
            (grantedKeys grants uid) [] with
         | none => none
         | some l => some (some l)) := rfl
  rw [hu] at h
  have hloop : decendantsLoop (getPermissionDecendants rows fuel)
      (grantedKeys grants uid) [] = some l := by
    cases hd : decendantsLoop (getPermissionDecendants rows fuel)
        (grantedKeys grants uid) [] with
    | none => rw [hd] at h; exact absurd h (by simp)
    | some l' =>
      rw [hd] at h
      have h2 : l' = l := by
        have h3 : (some (some l') : Option (Option (List String))) = some (some l) := h
        simpa using h3
      rw [h2]
  have hsub : ∀ c ds, getPermissionDecendants rows fuel c = some ds →
      ∀ x ∈ ds, Descendant rows c x :=
    fun c ds hds x hx => ((gpd_spec rows fuel c ds hds).2 x).mp hx
  have hsup : ∀ c ds, getPermissionDecendants rows fuel c = some ds →
      ∀ x, Descendant rows c x → x ∈ ds :=
    fun c ds hds x hx => ((gpd_spec rows fuel c ds hds).2 x).mpr hx
  refine ⟨rfl, decendantsLoop_nodup _ _ _ _ hloop List.nodup_nil, fun x => ⟨?_, ?_⟩⟩
  · intro hx
    rcases decendantsLoop_sound _ (Descendant rows) hsub _ _ _ hloop x hx with
      h1 | ⟨g, hg, hcase⟩
    · exact absurd h1 (List.not_mem_nil x)
    · exact ⟨g, hg, hcase⟩
  · rintro ⟨g, hg, hcase⟩
    have hgl : g ∈ l := decendantsLoop_mem _ _ _ _ hloop g hg
    have hclosed := decendantsLoop_closed _ (Descendant rows)
      (fun _ _ _ hab hbc => Relation.TransGen.trans hab hbc) hsub hsup
      _ _ _ hloop (fun y hy => absurd hy (List.not_mem_nil y))
    rcases hcase with rfl | hR
    · exact hgl
    · exact hclosed g hgl x hR

/-- Witness for C5's amended theorem: user 1 directly granted `reports`,
with `reports.export` a child of `reports`. -/
theorem getUserPermissions_spec_witness :
    getUserPermissions reportRows [(1, "reports")] 2 (some 1)
      = some (some ["reports", "reports.export"]) ∧
    (getUserPermissions reportRows [(1, "reports")] 2 none = some none ∧
     (["reports", "reports.export"] : List String).Nodup ∧
     (∀ x, x ∈ (["reports", "reports.export"] : List String) ↔
       ∃ g ∈ grantedKeys [(1, "reports")] 1, x = g ∨ Descendant reportRows g x)) :=
  ⟨rfl, getUserPermissions_spec reportRows [(1, "reports")] 2 1
    ["reports", "reports.export"] rfl⟩

/-- On the cyclic hierarchy `cycRows`, the descendant recursion exhausts
every fuel: the JavaScript recursion never terminates on either key. -/
theorem cyc_gpd_none (fuel : Nat) :
    getPermissionDecendants cycRows fuel "A" = none ∧
    getPermissionDecendants cycRows fuel "B" = none := by
  induction fuel with
  | zero => exact ⟨rfl, rfl⟩
  | succ n ih =>
    constructor
    · rw [show getPermissionDecendants cycRows (n + 1) "A"
            = (match getPermissionDecendants cycRows n "B" with
               | none => none
               | some ds => decendantsLoop (getPermissionDecendants cycRows n) []
                   (pushNew ([] ++ ["B"]) ds)) from rfl, ih.2]
    · rw [show getPermissionDecendants cycRows (n + 1) "B"
            = (match getPermissionDecendants cycRows n "A" with
               | none => none
               | some ds => decendantsLoop (getPermissionDecendants cycRows n) []
                   (pushNew ([] ++ ["A"]) ds)) from rfl, ih.1]

/-- C6 counterexample.  The claim says the permission-resolution
operations terminate on every hierarchy, including an ill-formed cyclic
one, because a key on the active call path is never re-expanded.  The
code has no such guard: on the two-key cycle `A ↔ B` neither
`getPermissionDecendants` nor `getUserPermissions` produces a result at
any recursion depth — the JavaScript recursion diverges. -/
theorem permission_recursion_diverges_on_cycle :
    (¬∃ fuel l, getPermissionDecendants cycRows fuel "A" = some l) ∧
    (¬∃ fuel r, getUserPermissions cycRows [(1, "A")] fuel (some 1) = some r) := by
  constructor
  · rintro ⟨fuel, l, h⟩
    rw [(cyc_gpd_none fuel).1] at h
    exact Option.noConfusion h
  · rintro ⟨fuel, r, h⟩
    have hl : decendantsLoop (getPermissionDecendants cycRows fuel) ["A"] [] = none := by
      rw [show decendantsLoop (getPermissionDecendants cycRows fuel) ["A"] []
            = (match getPermissionDecendants cycRows fuel "A" with
               | none => none
               | some ds => decendantsLoop (getPermissionDecendants cycRows fuel) []
                   (pushNew ([] ++ ["A"]) ds)) from rfl, (cyc_gpd_none fuel).1]
    rw [show getUserPermissions cycRows [(1, "A")] fuel (some 1)
          = (match decendantsLoop (getPermissionDecendants cycRows fuel) ["A"] [] with
             | none => none
             | some l => some (some l)) from rfl, hl] at h
    exact Option.noConfusion h

/-- The loop terminates whenever every recursive call it makes
terminates. -/
theorem decendantsLoop_isSome (rec : String → Option (List String)) :
    ∀ cs acc, (∀ c ∈ cs, (rec c).isSome) → (decendantsLoop rec cs acc).isSome := by
  intro cs
  induction cs with
  | nil => intro acc _; simp [decendantsLoop]
  | cons c cs ih =>
    intro acc h
    show (if acc.contains c then decendantsLoop rec cs acc
          else match rec c with
               | none => none
               | some ds => decendantsLoop rec cs (pushNew (acc ++ [c]) ds)).isSome
    by_cases hc : acc.contains c
    · rw [if_pos hc]
      exact ih acc (fun x hx => h x (List.mem_cons_of_mem _ hx))
    · rw [if_neg hc]
      obtain ⟨ds, hds⟩ := Option.isSome_iff_exists.mp (h c (List.mem_cons_self c cs))
      rw [hds]
      exact ih _ (fun x hx => h x (List.mem_cons_of_mem _ hx))

/-- Membership in `childrenOf` is existence of a hierarchy row. -/
theorem mem_childrenOf {rows : List PermRow} {k c : String}
    (h : c ∈ childrenOf rows k) :
    ∃ r, r ∈ rows ∧ r.parent_key = k ∧ r.permission_key = c := by
  simp only [childrenOf, List.mem_map, List.mem_filter, decide_eq_true_eq] at h
  obtain ⟨r, ⟨hr, hp⟩, he⟩ := h
  exact ⟨r, hr, hp, he⟩

/-- With a depth measure decreasing along child edges, the descendant
recursion of `getPermissionDecendants` succeeds at any fuel exceeding the
start key's depth. -/
theorem gpd_terminates (rows : List PermRow) (depth : String → Nat)
    (hd : ∀ r ∈ rows, depth r.permission_key < depth r.parent_key) :
    ∀ fuel k, depth k < fuel → (getPermissionDecendants rows fuel k).isSome := by
  intro fuel
  induction fuel with
  | zero => intro k hk; exact absurd hk (by omega)
  | succ n ih =>
    intro k hk
    show (decendantsLoop (getPermissionDecendants rows n) (childrenOf rows k) []).isSome
    apply decendantsLoop_isSome
    intro c hc
    obtain ⟨r, hr, hpk, hck⟩ := mem_childrenOf hc
    have h1 : depth c < depth k := by
      have h2 := hd r hr
      rw [hpk, hck] at h2
      exact h2
    exact ih c (by omega)

/-- C6 (amended).  The permission-resolution operations terminate on
every hierarchy that admits a depth measure decreasing along child edges
(every acyclic forest does); the code has no guard for the active call
path, so on a cyclic hierarchy the recursion diverges (see the
counterexample). -/
theorem permission_resolution_terminates_with_measure
    (rows : List PermRow) (grants : List GrantRow) (depth : String → Nat)
    (fuel : Nat) (k : String) (uid : Nat)
    (hd : ∀ r ∈ rows, depth r.permission_key < depth r.parent_key)
    (hk : depth k < fuel)
    (hg : ∀ g ∈ grantedKeys grants uid, depth g < fuel) :
    (getPermissionDecendants rows fuel k).isSome ∧
    (getUserPermissions rows grants fuel (some uid)).isSome := by
  refine ⟨gpd_terminates rows depth hd fuel k hk, ?_⟩
  have h := decendantsLoop_isSome (getPermissionDecendants rows fuel)
    (grantedKeys grants uid) []
    (fun g hg' => gpd_terminates rows depth hd fuel g (hg g hg'))
  show (match decendantsLoop (getPermissionDecendants rows fuel)
          (grantedKeys grants uid) [] with
        | none => (none : Option (Option (List String)))
        | some l => some (some l)).isSome
  obtain ⟨l, hl⟩ := Option.isSome_iff_exists.mp h
  rw [hl]
  rfl

/-- Witness for C6's amended theorem on the one-edge hierarchy
`reports.export < reports`, with the evident depth measure. -/
theorem permission_resolution_terminates_with_measure_witness :
    (∀ r ∈ reportRows,
      (fun key => if key = "reports" then 1 else 0) r.permission_key
        < (fun key => if key = "reports" then 1 else 0) r.parent_key) ∧
    ((fun key => if key = "reports" then 1 else 0) "reports" < 2) ∧
    (∀ g ∈ grantedKeys [(1, "reports")] 1,
      (fun key => if key = "reports" then 1 else 0) g < 2) ∧
    ((getPermissionDecendants reportRows 2 "reports").isSome ∧
     (getUserPermissions reportRows [(1, "reports")] 2 (some 1)).isSome) :=
  ⟨by decide, by decide, by decide,
   permission_resolution_terminates_with_measure reportRows [(1, "reports")]
     (fun key => if key = "reports" then 1 else 0) 2 "reports" 1
     (by decide) (by decide) (by decide)⟩

/-- Evaluation of `getSession` at a table whose session lookup is known. -/
theorem getSession_eval (sess : List SessionRow) (us : List UserRow)
    (lt : List TokenRow) (nid : Nat) (sid : Nat) (row : SessionRow)
    (h : sess.find? (fun s => s.session_id = sid) = some row) :
    getSession ⟨sess, us, lt, nid⟩ sid
      = some { session_id := row.session_id, user_id := row.user_id,
               token := row.session_token, start_date := row.start_date,
               expiration_date := row.expiration_date,
               admin := (match us.find? (fun u => u.user_id = row.user_id) with
                         | some u => u.admin
                         | none => vnull) == vnum 1 } := by
  unfold getSession
  rw [h]

/-- Evaluation of `establishSession` at a table whose token and id lookups
both find the same (fresh) row: the session is returned and its owning
user is the row's user. -/
theorem establishSession_eval (sess : List SessionRow) (us : List UserRow)
    (lt : List TokenRow) (nid : Nat) (now2 : Nat) (uuid : String) (row : SessionRow)
    (h1 : sess.find? (fun s => s.session_token = some uuid) = some row)
    (h2 : sess.find? (fun s => s.session_id = row.session_id) = some row) :
    ∃ est t5, establishSession ⟨sess, us, lt, nid⟩ now2 uuid = (some est, t5) ∧
      est.user_id = row.user_id := by
  unfold establishSession
  rw [h1]
  dsimp only
  rw [getSession_eval sess us lt nid row.session_id row h2]
  exact ⟨_, _, rfl, rfl⟩

/-- Evaluation of the login handler's success path: with the four guards
satisfied and a fresh token/session id, the handler returns a
session-mutation payload carrying the new session, and establishing the
fresh token against the post-login tables finds a session of the same
user. -/
theorem loginHandler_success_eval
    (sha256 : String → String) (req : RequestInfo) (now now2 : Nat) (newUUID : String)
    (username password_hash : String) (t : Tables) (user : UserRow) (tokenRow : TokenRow)
    (hfresh : ∀ s ∈ t.sessions, s.session_token ≠ some newUUID)
    (hid : ∀ s ∈ t.sessions, s.session_id ≠ t.nextSessionId)
    (hu : t.users.find? (fun u => u.login_name = username) = some user)
    (hact : user.active = true)
    (htok : t.loginTokens.find?
      (fun tk => decide (tk.ip = req.ip) && decide (tk.user_agent = normalizeUA req))
      = some tokenRow)
    (hpw : jsToLower (sha256 (user.password_hash ++ tokenRow.login_token))
      = jsToLower password_hash) :
    ∃ ls t4, loginHandler sha256 req now newUUID username password_hash t
        = (mkSuccessSession loginDataMarker (some ls), t4) ∧
      ls.token = some newUUID ∧ ls.user_id = user.user_id ∧
      ls.session_id = t.nextSessionId ∧
      ∃ est t5, establishSession t4 now2 newUUID = (some est, t5) ∧
        est.user_id = user.user_id := by
  have hmap : List.map (fun s => if s.session_id = t.nextSessionId
        then { s with session_token := some newUUID } else s) t.sessions
      = t.sessions := by
    have h1 := List.map_congr_left
      (l := t.sessions)
      (g := fun s => s)
      (f := fun s => if s.session_id = t.nextSessionId
        then { s with session_token := some newUUID } else s)
      (fun s hs => if_neg (hid s hs))
    rw [h1, List.map_id']
  have hfind3 : (t.sessions ++
      [({ session_id := t.nextSessionId, user_id := user.user_id,
          session_token := some newUUID, start_date := now,
          expiration_date := now + 3600, last_action := none, ip := req.ip,
          user_agent := normalizeUA req } : SessionRow)]).find?
        (fun s => decide (s.session_id = t.nextSessionId))
      = some ({ session_id := t.nextSessionId, user_id := user.user_id,
                session_token := some newUUID, start_date := now,
                expiration_date := now + 3600, last_action := none, ip := req.ip,
                user_agent := normalizeUA req } : SessionRow) := by
    rw [List.find?_append]
    have h0 : t.sessions.find? (fun s => decide (s.session_id = t.nextSessionId)) = none :=
      List.find?_eq_none.mpr (fun s hs => by simpa using hid s hs)
    rw [h0]
    simp
  have hfindTok : (t.sessions ++
      [({ session_id := t.nextSessionId, user_id := user.user_id,
          session_token := some newUUID, start_date := now,
          expiration_date := now + 3600, last_action := none, ip := req.ip,
          user_agent := normalizeUA req } : SessionRow)]).find?
        (fun s => decide (s.session_token = some newUUID))
      = some ({ session_id := t.nextSessionId, user_id := user.user_id,
                session_token := some newUUID, start_date := now,
                expiration_date := now + 3600, last_action := none, ip := req.ip,
                user_agent := normalizeUA req } : SessionRow) := by
    rw [List.find?_append]
    have h0 : t.sessions.find? (fun s => decide (s.session_token = some newUUID)) = none :=
      List.find?_eq_none.mpr (fun s hs => by simpa using hfresh s hs)
    rw [h0]
    simp
  simp [loginHandler, hu, hact, htok, hpw]
  rw [hmap]
  rw [getSession_eval _ _ _ _ _ _ hfind3]
  refine ⟨_, _, rfl, rfl, rfl, rfl, ?_⟩
  obtain ⟨est, t5, hest, hestu⟩ := establishSession_eval
    (t.sessions ++ [{ session_id := t.nextSessionId, user_id := user.user_id,
                      session_token := some newUUID, start_date := now,
                      expiration_date := now + 3600, last_action := none,
                      ip := req.ip, user_agent := normalizeUA req }])
    (List.map (fun u => if u.user_id = user.user_id
        then { u with last_login := some now } else u) t.users)
    (List.filter (fun tk => !decide (tk.ip = req.ip)
        || !decide (tk.user_agent = normalizeUA req)) t.loginTokens)
    (t.nextSessionId + 1) now2 newUUID _ hfindTok hfind3
  exact ⟨est, ⟨t5, hest⟩, hestu⟩

/-- C8 (confirmed).  Round-trip: for every login that succeeds (over
tables in which the fresh token and the next session id are indeed fresh
— the source relies on the global uniqueness of UUID tokens and on the
AUTO_INCREMENT invariant), immediately calling `establishSession` with
the session token returned by that login yields a live session whose
owning user identifier equals the logged-in user's identifier. -/
theorem login_establish_roundtrip
    (sha256 : String → String) (req : RequestInfo) (now now2 : Nat) (newUUID : String)
    (username password_hash : String) (t : Tables) (r : APIResponse) (t' : Tables)
    (hfresh : ∀ s ∈ t.sessions, s.session_token ≠ some newUUID)
    (hid : ∀ s ∈ t.sessions, s.session_id ≠ t.nextSessionId)
    (hlogin : loginHandler sha256 req now newUUID username password_hash t = (r, t'))
    (hsuccess : r.success = true) :
    ∃ sess, r.session = some (some sess) ∧
      sess.token = some newUUID ∧
      sess.session_id = t.nextSessionId ∧
      (∃ u, t.users.find? (fun u => u.login_name = username) = some u ∧
        sess.user_id = u.user_id) ∧
      ∃ est t2, establishSession t' now2 newUUID = (some est, t2) ∧
        est.user_id = sess.user_id := by
  cases hu : t.users.find? (fun u => u.login_name = username) with
  | none =>
    exfalso
    have hrun : loginHandler sha256 req now newUUID username password_hash t
        = (mkError (some "User not found"), t) := by
      simp [loginHandler, hu]
    rw [hrun, Prod.mk.injEq] at hlogin
    obtain ⟨hr, -⟩ := hlogin
    rw [← hr] at hsuccess
    simp [mkError] at hsuccess
  | some user =>
    by_cases hact : user.active
    case neg =>
      exfalso
      have hrun : loginHandler sha256 req now newUUID username password_hash t
          = (mkError (some "User account not activated"), t) := by
        simp [loginHandler, hu, hact]
      rw [hrun, Prod.mk.injEq] at hlogin
      obtain ⟨hr, -⟩ := hlogin
      rw [← hr] at hsuccess
      simp [mkError] at hsuccess
    case pos =>
    cases htok : t.loginTokens.find?
        (fun tk => decide (tk.ip = req.ip) && decide (tk.user_agent = normalizeUA req)) with
    | none =>
      exfalso
      have hrun : loginHandler sha256 req now newUUID username password_hash t
          = (mkError (some "No valid login-token found for your client"), t) := by
        simp [loginHandler, hu, hact, htok]
      rw [hrun, Prod.mk.injEq] at hlogin
      obtain ⟨hr, -⟩ := hlogin
      rw [← hr] at hsuccess
      simp [mkError] at hsuccess
    | some tokenRow =>
      by_cases hpw : jsToLower (sha256 (user.password_hash ++ tokenRow.login_token))
          = jsToLower password_hash
      case neg =>
        exfalso
        have hrun : loginHandler sha256 req now newUUID username password_hash t
            = (mkError (some "Wrong password"), t) := by
          simp [loginHandler, hu, hact, htok, hpw]
        rw [hrun, Prod.mk.injEq] at hlogin
        obtain ⟨hr, -⟩ := hlogin
        rw [← hr] at hsuccess
        simp [mkError] at hsuccess
      case pos =>
        obtain ⟨ls, t4, heval, hlt, hlu, hlsid, est, t5, hest, hestu⟩ :=
          loginHandler_success_eval sha256 req now now2 newUUID username password_hash t
            user tokenRow hfresh hid hu hact htok hpw
        rw [heval, Prod.mk.injEq] at hlogin
        obtain ⟨hr, ht4⟩ := hlogin
        refine ⟨ls, ?_, hlt, hlsid, ⟨user, rfl, hlu⟩, est, t5, ?_, hestu.trans hlu.symm⟩
        · rw [← hr]
          rfl
        · rw [← ht4]
          exact hest

/-- Witness for C8 at the concrete fixture: user `alice` (id 7) logs in
with token `uuid-1`; establishing `uuid-1` immediately afterwards yields
a session owned by user 7. -/
theorem login_establish_roundtrip_witness :
    loginHandler hashFix reqFix 1000 "uuid-1" "alice" "pwlt#h" tL
      = (loginFixResponse, loginFixTables) ∧
    loginFixResponse.success = true ∧
    (∃ sess, loginFixResponse.session = some (some sess) ∧
      sess.token = some "uuid-1" ∧
      sess.session_id = tL.nextSessionId ∧
      (∃ u, tL.users.find? (fun u => u.login_name = "alice") = some u ∧
        sess.user_id = u.user_id) ∧
      ∃ est t2, establishSession loginFixTables 2000 "uuid-1" = (some est, t2) ∧
        est.user_id = sess.user_id) :=
  ⟨rfl, rfl,
   login_establish_roundtrip hashFix reqFix 1000 2000 "uuid-1" "alice" "pwlt#h" tL
     loginFixResponse loginFixTables (by decide) (by decide) rfl rfl⟩

end MdApi
